import Mathlib

/-!
Verification development for the dkv storage contract layer
(internal/storage/store.go): a shallow embedding of the concrete helper
functions of that file (NewStat, CreateTempFile, CreateTempFolder,
RenameFolder) together with models of the interface contracts it declares
(KVStore.Get, KVStore.CompareAndSet, Backupable.RestoreFrom,
ChangeApplier.SaveChanges), whose engine implementations live outside this
file and are therefore modelled from the specification text.

Byte strings are lists of naturals; machine integers (uint64 change
numbers) are naturals, no arithmetic that could overflow is performed on
them. Fallible operations return Except; a Go function returning
(value, error) with mutation of ambient state is embedded as explicit
state passing returning the new state plus an Option error.
-/

/-- Keys and values are opaque byte sequences. -/
abbrev Bytes := List Nat

/-- One mutation of a replicated change: an operation code with its key and
value, mirroring serverpb.TrxnRecord. Its content is opaque to the contract
layer; only whole records matter to SaveChanges. -/
structure TrxnRecord where
  op : Nat
  key : Bytes
  value : Bytes
deriving DecidableEq

/-- A replicated change record, mirroring serverpb.ChangeRecord: a change
number together with the ordered mutations of that change. -/
structure ChangeRecord where
  changeNumber : Nat
  trxns : List TrxnRecord
deriving DecidableEq

/-- Applies a list of change records in order through the engine's
single-record apply function, stopping at the first failure. Used to state
which records SaveChanges has applied. -/
def applyAll {St Err : Type} (applyRec : St → ChangeRecord → Except Err St) :
    St → List ChangeRecord → Except Err St
  | s, [] => .ok s
  | s, c :: cs =>
    match applyRec s c with
    | .error e => .error e
    | .ok s1 => applyAll applyRec s1 cs

/-- The change number of the last record of the list, or the given default
when the list is empty. -/
def lastChangeNum : Nat → List ChangeRecord → Nat
  | d, [] => d
  | _, c :: cs => lastChangeNum c.changeNumber cs

/-- Modelled from the spec: the loop of ChangeApplier.SaveChanges, whose
engine implementation is not part of store.go (only the interface and its
contract are). Applies the given records in the order supplied, one at a
time through the engine's apply function; on the first record that fails it
stops and returns the state reached, the change number of the last record
successfully applied (the accumulator when none was), and the error. -/
def saveChangesFrom {St Err : Type} (applyRec : St → ChangeRecord → Except Err St) :
    St → Nat → List ChangeRecord → St × Nat × Option Err
  | s, last, [] => (s, last, none)
  | s, last, c :: cs =>
    match applyRec s c with
    | .error e => (s, last, some e)
    | .ok s1 => saveChangesFrom applyRec s1 c.changeNumber cs

/-- Modelled from the spec: ChangeApplier.SaveChanges entry point, starting
the applied-change-number accumulator at zero. -/
def SaveChanges {St Err : Type} (applyRec : St → ChangeRecord → Except Err St)
    (s : St) (changes : List ChangeRecord) : St × Nat × Option Err :=
  saveChangesFrom applyRec s 0 changes

/-- Looks a key up in an association-list keyspace. -/
def kvLookup : List (Bytes × Bytes) → Bytes → Option Bytes
  | [], _ => none
  | (k, v) :: rest, q => if k = q then some v else kvLookup rest q

/-- Stores a key/value association, replacing the existing value of the key
when present. -/
def kvPut : List (Bytes × Bytes) → Bytes → Bytes → List (Bytes × Bytes)
  | [], k, v => [(k, v)]
  | (k1, v1) :: rest, k, v =>
    if k1 = k then (k, v) :: rest else (k1, v1) :: kvPut rest k v

/-- Modelled from the spec: KVStore.CompareAndSet, whose engine
implementation is not part of store.go. The current value of the key is
compared byte-wise with the expected one (`none` standing for the nil,
absent-value expectation); on a match the key is set to the update and true
is returned, otherwise the store is left unchanged and false is returned;
a mismatch is not an error. Returns (new store, outcome, error). -/
def CompareAndSet (store : List (Bytes × Bytes)) (key : Bytes)
    (expect : Option Bytes) (update : Bytes) :
    List (Bytes × Bytes) × Bool × Option String :=
  if kvLookup store key = expect then (kvPut store key update, true, none)
  else (store, false, none)

/-- Modelled from the spec: the bulk KVStore.Get, whose engine
implementation is not part of store.go. Each key is read through the
engine's point read, which may find a value, find nothing, or fail; on the
first failing read the whole call returns that error and no pairs,
otherwise all values that exist are returned. -/
def getResults (readOne : Bytes → Except String (Option Bytes)) :
    List Bytes → Except String (List (Bytes × Bytes))
  | [] => .ok []
  | k :: ks =>
    match readOne k with
    | .error e => .error e
    | .ok none => getResults readOne ks
    | .ok (some v) =>
      match getResults readOne ks with
      | .error e => .error e
      | .ok rest => .ok ((k, v) :: rest)

/-- The pairs for exactly those requested keys that exist, in request
order: the result set Get must deliver when no read fails. -/
def presentPairs (readOne : Bytes → Except String (Option Bytes)) :
    List Bytes → List (Bytes × Bytes)
  | [] => []
  | k :: ks =>
    match readOne k with
    | .ok (some v) => (k, v) :: presentPairs readOne ks
    | _ => presentPairs readOne ks

/-- A filesystem state for the backup-swap helpers: paths (directory trees
taken as atomic entries) associated to opaque content, plus the paths on
which removal fails (modelling, say, permission errors). -/
structure FileSystem where
  entries : List (String × Nat)
  removalDenied : List String
deriving DecidableEq

/-- Looks a path up among filesystem entries. -/
def fsLookup : List (String × Nat) → String → Option Nat
  | [], _ => none
  | (q, c) :: rest, p => if q = p then some c else fsLookup rest p

/-- Removes every entry at the given path. -/
def fsErase : List (String × Nat) → String → List (String × Nat)
  | [], _ => []
  | (q, c) :: rest, p => if q = p then fsErase rest p else (q, c) :: fsErase rest p

/-- Model of os.RemoveAll: removes the path and all it holds; removing an
absent path succeeds; fails without touching the state on a denied path. -/
def removeAll (fs : FileSystem) (path : String) : Except String FileSystem :=
  if path ∈ fs.removalDenied then .error ("removeAll failed on " ++ path)
  else .ok ⟨fsErase fs.entries path, fs.removalDenied⟩

/-- Model of os.Rename: fails when the source path does not exist,
otherwise moves the source entry onto the destination path. -/
def renamePath (fs : FileSystem) (src dst : String) : Except String FileSystem :=
  match fsLookup fs.entries src with
  | none => .error ("rename failed, no such path " ++ src)
  | some c => .ok ⟨(dst, c) :: fsErase (fsErase fs.entries src) dst, fs.removalDenied⟩

/-- RenameFolder from store.go: moves the given src path onto the given dst
path by first removing the dst path and then performing the actual
movement; the first failing step's error is returned. The returned state is
the filesystem after the steps that ran. -/
def RenameFolder (fs : FileSystem) (src dst : String) : FileSystem × Option String :=
  match removeAll fs dst with
  | .error e => (fs, some e)
  | .ok fs1 =>
    match renamePath fs1 src dst with
    | .error e => (fs1, some e)
    | .ok fs2 => (fs2, none)

/-- The capability set Backupable.RestoreFrom returns on success: the
KVStore, Backupable, ChangePropagator and ChangeApplier views of the newly
restored store, each represented by the keyspace backing it. -/
structure RestoredCapabilities where
  kvStore : List (Bytes × Bytes)
  backupable : List (Bytes × Bytes)
  changePropagator : List (Bytes × Bytes)
  changeApplier : List (Bytes × Bytes)
deriving DecidableEq

/-- Modelled from the spec: Backupable.RestoreFrom, whose engine
implementation is not part of store.go. Reading the backup at the path
either yields the backed-up keyspace or fails; on success a fresh store is
built from that data alone and returned as the full capability set, and the
existing in-memory store is not mutated (it is passed through unchanged as
the second component). -/
def RestoreFrom (disk : String → Option (List (Bytes × Bytes)))
    (current : List (Bytes × Bytes)) (path : String) :
    Except String RestoredCapabilities × List (Bytes × Bytes) :=
  match disk path with
  | none => (.error ("restore failed from " ++ path), current)
  | some data => (.ok ⟨data, data, data, data⟩, current)

/-- A wall-clock instant as Go's time formatting consumes it. -/
structure GoTime where
  year : Nat
  month : Nat
  day : Nat
  hour : Nat
  minute : Nat
  second : Nat
deriving DecidableEq

/-- Zero-pads a numeral to two digits. -/
def pad2 (n : Nat) : String := if n < 10 then "0" ++ toString n else toString n

/-- Zero-pads a numeral to four digits. -/
def pad4 (n : Nat) : String :=
  if n < 10 then "000" ++ toString n
  else if n < 100 then "00" ++ toString n
  else if n < 1000 then "0" ++ toString n
  else toString n

/-- Go's reference layout "20060102150405" (the constant timeFormatTempPath
of store.go): four-digit year, then two digits each for month, day,
24-hour hour, minute and second. -/
def formatTempPath (t : GoTime) : String :=
  pad4 t.year ++ pad2 t.month ++ pad2 t.day ++ pad2 t.hour ++ pad2 t.minute ++ pad2 t.second

/-- Model of time.Time.AppendFormat with the timeFormatTempPath layout:
appends the formatted instant to the given bytes. -/
def appendFormatTempPath (t : GoTime) (b : String) : String := b ++ formatTempPath t

/-- CreateTempFile from store.go: appends the current time, formatted with
timeFormatTempPath, to the given name stem and delegates to the underlying
temp-file API (ioutil.TempFile, here an oracle argument) with that
effective stem; its error, when any, is returned as is. -/
def CreateTempFile {Err F : Type} (tempFileApi : String → String → Except Err F)
    (now : GoTime) (dir pfx : String) : Except Err F :=
  let tempFileStem := appendFormatTempPath now pfx
  match tempFileApi dir tempFileStem with
  | .error e => .error e
  | .ok f => .ok f

/-- CreateTempFolder from store.go: appends the current time, formatted
with timeFormatTempPath, to the given name stem and delegates to the
underlying temp-dir API (ioutil.TempDir, here an oracle argument) with that
effective stem. -/
def CreateTempFolder {Err : Type} (tempDirApi : String → String → Except Err String)
    (now : GoTime) (dir pfx : String) : Except Err String :=
  let tempFolderStem := appendFormatTempPath now pfx
  tempDirApi dir tempFolderStem

/-- The metric namespace constant of the repository's internal/stats
package (its exact value is immaterial to every property proved here). -/
def statsNamespace : String := "dkv"

/-- The operation label name constant of the repository's internal/stats
package. -/
def statsOps : String := "ops"

/-- A prometheus SummaryVec as NewStat configures it: namespace, name, help
text, quantile objectives (quantile paired with allowed error), the sliding
window age in seconds, and the label names. Objective values are exact
rationals standing for the source's literals. -/
structure SummaryVec where
  nameSpace : String
  name : String
  help : String
  objectives : List (Rat × Rat)
  maxAgeSeconds : Nat
  labelNames : List String
deriving DecidableEq

/-- A prometheus CounterVec as NewStat configures it. -/
structure CounterVec where
  nameSpace : String
  name : String
  help : String
  labelNames : List String
deriving DecidableEq

/-- The Stat structure of store.go: the latency summary vector and the
error counter vector. -/
structure Stat where
  RequestLatency : SummaryVec
  ResponseError : CounterVec
deriving DecidableEq

/-- A prometheus registry, identified by the fully qualified metric names
registered so far. The registry is a value passed in and returned, never a
process global. -/
structure Registry where
  collectors : List String
deriving DecidableEq

/-- Whether the name occurs in the list. -/
def containsName : List String → String → Bool
  | [], _ => false
  | x :: xs, n => if x = n then true else containsName xs n

/-- Whether any of the names is already registered. -/
def anyRegistered (r : Registry) : List String → Bool
  | [] => false
  | n :: ns => if containsName r.collectors n then true else anyRegistered r ns

/-- The fully qualified metric name prometheus derives from a namespace and
a metric name. -/
def fqName (ns nm : String) : String := ns ++ "_" ++ nm

/-- Model of prometheus.Registerer.MustRegister: registering a collector
whose fully qualified name is already present panics rather than returning
an error; none models the panic, some the extended registry. -/
def mustRegister (r : Registry) (names : List String) : Option Registry :=
  if anyRegistered r names then none else some ⟨r.collectors ++ names⟩

/-- NewStat from store.go: builds the latency SummaryVec (objectives 0.5
within 0.05, 0.9 within 0.01, 0.99 within 0.001; ten-second window; the
operation label) and the error CounterVec for the engine, registers both
with the registry argument through MustRegister, and returns the Stat; a
registration panic propagates (none). -/
def NewStat (registry : Registry) (engine : String) : Option (Stat × Registry) :=
  let requestLatency : SummaryVec :=
    ⟨statsNamespace, "storage_latency_" ++ engine,
      "Latency statistics for " ++ engine ++ " storage operations",
      [((1 : Rat)/2, (1 : Rat)/20), ((9 : Rat)/10, (1 : Rat)/100),
        ((99 : Rat)/100, (1 : Rat)/1000)],
      10, [statsOps]⟩
  let responseError : CounterVec :=
    ⟨statsNamespace, "storage_error_" ++ engine,
      "Error count for " ++ engine ++ " storage operations", [statsOps]⟩
  match mustRegister registry
      [fqName statsNamespace requestLatency.name,
        fqName statsNamespace responseError.name] with
  | none => none
  | some r2 => some (⟨requestLatency, responseError⟩, r2)

/-- The Stat NewStat yields for the badger engine on an empty registry;
used to instantiate theorems at a concrete input. -/
def statBadger : Stat :=
  ⟨⟨statsNamespace, "storage_latency_badger",
      "Latency statistics for badger storage operations",
      [((1 : Rat)/2, (1 : Rat)/20), ((9 : Rat)/10, (1 : Rat)/100),
        ((99 : Rat)/100, (1 : Rat)/1000)],
      10, [statsOps]⟩,
    ⟨statsNamespace, "storage_error_badger",
      "Error count for badger storage operations", [statsOps]⟩⟩

/-- The registry NewStat yields for the badger engine on an empty registry. -/
def registryBadger : Registry :=
  ⟨["dkv_storage_latency_badger", "dkv_storage_error_badger"]⟩

/-- Erasing a path leaves no entry at that path. -/
theorem fsLookup_fsErase_self (l : List (String × Nat)) (p : String) :
    fsLookup (fsErase l p) p = none := by
  induction l with
  | nil => rfl
  | cons e rest ih =>
    obtain ⟨q, c⟩ := e
    by_cases h : q = p
    · simp [fsErase, h, ih]
    · simp [fsErase, fsLookup, h, ih]

/-- Erasing one path does not change the lookup of another. -/
theorem fsLookup_fsErase_ne (l : List (String × Nat)) (p q : String) (h : q ≠ p) :
    fsLookup (fsErase l p) q = fsLookup l q := by
  induction l with
  | nil => rfl
  | cons e rest ih =>
    obtain ⟨r, c⟩ := e
    by_cases hr : r = p
    · simp [fsErase, fsLookup, hr, ih, Ne.symm h]
    · by_cases hq : r = q
      · simp [fsErase, fsLookup, hr, hq, h]
      · simp [fsErase, fsLookup, hr, hq, ih]

/-- A put key reads back the value just put. -/
theorem kvLookup_kvPut_self (l : List (Bytes × Bytes)) (k v : Bytes) :
    kvLookup (kvPut l k v) k = some v := by
  induction l with
  | nil => simp [kvPut, kvLookup]
  | cons e rest ih =>
    obtain ⟨k1, v1⟩ := e
    by_cases h : k1 = k
    · simp [kvPut, h, kvLookup]
    · simp [kvPut, h, kvLookup, ih]

/-- A name placed in the middle of a list is found there. -/
theorem containsName_append_mid (l l2 : List String) (n : String) :
    containsName (l ++ n :: l2) n = true := by
  induction l with
  | nil => simp [containsName]
  | cons x xs ih =>
    by_cases h : x = n
    · simp [containsName, h]
    · simp [containsName, h, ih]

/-- Closed form of NewStat: it fails exactly when one of its two fully
qualified metric names is already registered, and otherwise returns the
configured Stat with the registry extended by those two names. -/
theorem newStat_eq (r : Registry) (engine : String) :
    NewStat r engine =
      if anyRegistered r [fqName statsNamespace ("storage_latency_" ++ engine),
          fqName statsNamespace ("storage_error_" ++ engine)]
      then none
      else some
        (⟨⟨statsNamespace, "storage_latency_" ++ engine,
            "Latency statistics for " ++ engine ++ " storage operations",
            [((1 : Rat)/2, (1 : Rat)/20), ((9 : Rat)/10, (1 : Rat)/100),
              ((99 : Rat)/100, (1 : Rat)/1000)],
            10, [statsOps]⟩,
          ⟨statsNamespace, "storage_error_" ++ engine,
            "Error count for " ++ engine ++ " storage operations", [statsOps]⟩⟩,
        ⟨r.collectors ++ [fqName statsNamespace ("storage_latency_" ++ engine),
            fqName statsNamespace ("storage_error_" ++ engine)]⟩) := by
  cases h : anyRegistered r [fqName statsNamespace ("storage_latency_" ++ engine),
      fqName statsNamespace ("storage_error_" ++ engine)] with
  | true => simp [NewStat, mustRegister, h]
  | false => simp [NewStat, mustRegister, h]

/-- Generalized form of the SaveChanges contract over an arbitrary
accumulator for the last applied change number. -/
theorem saveChangesFrom_spec {St Err : Type} (applyRec : St → ChangeRecord → Except Err St)
    (cs : List ChangeRecord) : ∀ (s : St) (last : Nat),
    (∃ s1, applyAll applyRec s cs = .ok s1 ∧
      saveChangesFrom applyRec s last cs = (s1, lastChangeNum last cs, none)) ∨
    (∃ pre c post s1 e, cs = pre ++ c :: post ∧
      applyAll applyRec s pre = .ok s1 ∧ applyRec s1 c = .error e ∧
      saveChangesFrom applyRec s last cs = (s1, lastChangeNum last pre, some e)) := by
  induction cs with
  | nil => exact fun s last => .inl ⟨s, rfl, rfl⟩
  | cons c cs ih =>
    intro s last
    cases hc : applyRec s c with
    | error e =>
      exact .inr ⟨[], c, cs, s, e, rfl, rfl, hc, by simp [saveChangesFrom, hc, lastChangeNum]⟩
    | ok s1 =>
      rcases ih s1 c.changeNumber with ⟨s2, hall, hsave⟩ |
        ⟨pre, c0, post, s2, e, hdecomp, hpre, herr, hsave⟩
      · exact .inl ⟨s2, by simp [applyAll, hc, hall],
          by simp [saveChangesFrom, hc, hsave, lastChangeNum]⟩
      · exact .inr ⟨c :: pre, c0, post, s2, e, by simp [hdecomp],
          by simp [applyAll, hc, hpre], herr,
          by simp [saveChangesFrom, hc, hsave, lastChangeNum]⟩

/-- C1: SaveChanges applies the given records in the order supplied, one at
a time; on the first record that fails to apply it stops immediately, the
state reached is the one produced by the successfully applied ones alone
(no later record is applied), and it returns the change number of the last
successfully applied record together with the failing record's error; when
all succeed it returns the last (highest applied) change number and no
error. -/
theorem saveChanges_order_and_first_error {St Err : Type}
    (applyRec : St → ChangeRecord → Except Err St) (s : St) (changes : List ChangeRecord) :
    (∃ s1, applyAll applyRec s changes = .ok s1 ∧
      SaveChanges applyRec s changes = (s1, lastChangeNum 0 changes, none)) ∨
    (∃ pre c post s1 e, changes = pre ++ c :: post ∧
      applyAll applyRec s pre = .ok s1 ∧ applyRec s1 c = .error e ∧
      SaveChanges applyRec s changes = (s1, lastChangeNum 0 pre, some e)) :=
  saveChangesFrom_spec applyRec changes s 0

/-- C2: CompareAndSet succeeds exactly when the current value of the key
equals the expected one byte-wise, in which case it sets the key to the
update and returns true with no error; otherwise it returns false with no
error and leaves the store unchanged — a mismatch is not an error; and with
the nil (absent) expectation it succeeds exactly when the key does not
currently exist, creating it with the update. -/
theorem compareAndSet_spec (store : List (Bytes × Bytes)) (key : Bytes)
    (expect : Option Bytes) (update : Bytes) :
    ((CompareAndSet store key expect update).2.1 = true ↔ kvLookup store key = expect) ∧
    (CompareAndSet store key expect update).2.2 = none ∧
    (kvLookup store key = expect →
      (CompareAndSet store key expect update).1 = kvPut store key update ∧
      kvLookup (CompareAndSet store key expect update).1 key = some update) ∧
    (kvLookup store key ≠ expect → (CompareAndSet store key expect update).1 = store) ∧
    (expect = none →
      ((CompareAndSet store key expect update).2.1 = true ↔ kvLookup store key = none)) := by
  by_cases h : kvLookup store key = expect
  · simp [CompareAndSet, h, kvLookup_kvPut_self]
  · have hcas : CompareAndSet store key expect update = (store, false, none) := by
      simp [CompareAndSet, h]
    rw [hcas]
    refine ⟨by simp [h], rfl, fun hc => absurd hc h, fun _ => rfl, ?_⟩
    intro he
    rw [he] at h
    simp [h]

/-- C3: bulk Get is all-or-nothing: when every requested key's engine read
succeeds, the call returns exactly the pairs of the requested keys that
exist; when some requested key's read fails, the call returns an error and
no pairs. -/
theorem get_all_or_nothing (readOne : Bytes → Except String (Option Bytes))
    (keys : List Bytes) :
    ((∀ k, k ∈ keys → ∃ v, readOne k = .ok v) ∧
      getResults readOne keys = .ok (presentPairs readOne keys)) ∨
    ((∃ k, k ∈ keys ∧ ∃ e, readOne k = .error e) ∧
      ∃ e, getResults readOne keys = .error e) := by
  induction keys with
  | nil => exact .inl ⟨by simp, rfl⟩
  | cons k ks ih =>
    cases hk : readOne k with
    | error e =>
      exact .inr ⟨⟨k, by simp, e, hk⟩, e, by simp [getResults, hk]⟩
    | ok v =>
      rcases ih with ⟨hall, hres⟩ | ⟨⟨k0, hmem, e0, he0⟩, e1, hres⟩
      · left
        refine ⟨?_, ?_⟩
        · intro k1 hk1
          rcases List.mem_cons.mp hk1 with h1 | h1
          · exact ⟨v, by rw [h1]; exact hk⟩
          · exact hall k1 h1
        · cases v with
          | none => simp [getResults, presentPairs, hk, hres]
          | some w => simp [getResults, presentPairs, hk, hres]
      · right
        refine ⟨⟨k0, by simp [hmem], e0, he0⟩, ?_⟩
        cases v with
        | none => exact ⟨e1, by simp [getResults, hk, hres]⟩
        | some w => exact ⟨e1, by simp [getResults, hk, hres]⟩

/-- C4: RenameFolder proceeds by remove-then-rename: it first removes the
destination path in full (failing there leaves everything unchanged), so
that the rename step starts from a state with no entry at the destination,
and only then renames the staged source onto the destination; on overall
success the destination holds what the source held before the call. -/
theorem renameFolder_remove_then_rename (fs : FileSystem) (src dst : String) :
    (∃ e, removeAll fs dst = .error e ∧ RenameFolder fs src dst = (fs, some e)) ∨
    (∃ fs1, removeAll fs dst = .ok fs1 ∧ fsLookup fs1.entries dst = none ∧
      ((∃ e, renamePath fs1 src dst = .error e ∧ RenameFolder fs src dst = (fs1, some e)) ∨
       (∃ fs2, renamePath fs1 src dst = .ok fs2 ∧
         fsLookup fs2.entries dst = fsLookup fs.entries src ∧
         RenameFolder fs src dst = (fs2, none)))) := by
  by_cases hd : dst ∈ fs.removalDenied
  · exact .inl ⟨"removeAll failed on " ++ dst, by simp [removeAll, hd],
      by simp [RenameFolder, removeAll, hd]⟩
  · right
    refine ⟨⟨fsErase fs.entries dst, fs.removalDenied⟩, by simp [removeAll, hd],
      fsLookup_fsErase_self _ _, ?_⟩
    cases hsrc : fsLookup (fsErase fs.entries dst) src with
    | none =>
      left
      exact ⟨"rename failed, no such path " ++ src, by simp [renamePath, hsrc],
        by simp [RenameFolder, removeAll, hd, renamePath, hsrc]⟩
    | some c =>
      right
      refine ⟨⟨(dst, c) :: fsErase (fsErase (fsErase fs.entries dst) src) dst,
          fs.removalDenied⟩,
        by simp [renamePath, hsrc], ?_,
        by simp [RenameFolder, removeAll, hd, renamePath, hsrc]⟩
      have hdsteq : fsLookup ((dst, c) ::
          fsErase (fsErase (fsErase fs.entries dst) src) dst) dst = some c := by
        simp [fsLookup]
      rw [hdsteq]
      by_cases hsd : src = dst
      · rw [hsd, fsLookup_fsErase_self] at hsrc
        exact Option.noConfusion hsrc
      · rw [fsLookup_fsErase_ne fs.entries dst src hsd] at hsrc
        exact hsrc.symm

/-- C5: the claim that a failing RenameFolder call leaves the destination
in its prior state is false of the code: at this input the removal of the
destination succeeds and the subsequent rename fails because the source
does not exist, so an error is returned while the destination, which held
content before the call, no longer exists after it. -/
theorem renameFolder_error_leaves_dst_destroyed :
    (RenameFolder ⟨[("data", 7)], []⟩ "stage" "data").2 ≠ none ∧
    fsLookup (FileSystem.mk [("data", 7)] []).entries "data" = some 7 ∧
    fsLookup (RenameFolder ⟨[("data", 7)], []⟩ "stage" "data").1.entries "data" = none := by
  decide

/-- C6: RestoreFrom is a cold-start operation: on a readable backup it
returns the full capability set (the KVStore, Backupable, ChangePropagator
and ChangeApplier views) of the newly restored store, all backed by the
data read from the path alone — independent of the existing in-memory
store, which it never mutates — and on failure it returns an error. -/
theorem restoreFrom_capability_set (disk : String → Option (List (Bytes × Bytes)))
    (current : List (Bytes × Bytes)) (path : String) :
    (RestoreFrom disk current path).2 = current ∧
    (∀ current2 : List (Bytes × Bytes),
      (RestoreFrom disk current path).1 = (RestoreFrom disk current2 path).1) ∧
    ((∃ d, disk path = some d ∧
        (RestoreFrom disk current path).1 = .ok ⟨d, d, d, d⟩) ∨
      (disk path = none ∧ ∃ e, (RestoreFrom disk current path).1 = .error e)) := by
  cases hd : disk path with
  | none =>
    exact ⟨by simp [RestoreFrom, hd], fun c2 => by simp [RestoreFrom, hd],
      .inr ⟨rfl, "restore failed from " ++ path, by simp [RestoreFrom, hd]⟩⟩
  | some d =>
    exact ⟨by simp [RestoreFrom, hd], fun c2 => by simp [RestoreFrom, hd],
      .inl ⟨d, rfl, by simp [RestoreFrom, hd]⟩⟩

/-- C7: CreateTempFile and CreateTempFolder pass to the underlying
temp-creation API exactly the given stem immediately followed by the
current wall-clock time formatted with Go's "20060102150405" layout (at the
layout's reference instant that format reads "20060102150405"). -/
theorem createTemp_timestamp_suffix {Err F : Type}
    (tempFileApi : String → String → Except Err F)
    (tempDirApi : String → String → Except Err String)
    (now : GoTime) (dir pfx : String) :
    CreateTempFile tempFileApi now dir pfx = tempFileApi dir (pfx ++ formatTempPath now) ∧
    CreateTempFolder tempDirApi now dir pfx = tempDirApi dir (pfx ++ formatTempPath now) ∧
    formatTempPath ⟨2006, 1, 2, 15, 4, 5⟩ = "20060102150405" := by
  refine ⟨?_, rfl, by decide⟩
  cases h : tempFileApi dir (pfx ++ formatTempPath now) with
  | error e => simp [CreateTempFile, appendFormatTempPath, h]
  | ok f => simp [CreateTempFile, appendFormatTempPath, h]

/-- C8: NewStat builds, for the given engine, a windowed latency summary
with quantile objectives at exactly 0.5, 0.9 and 0.99, labelled by
operation name, plus an error counter, and registers both with the registry
passed in as argument (the returned registry is that argument extended by
the two metrics), not with any process-global registry. -/
theorem newStat_quantiles_injected_registry (r : Registry) (engine : String)
    (st : Stat) (r2 : Registry) (h : NewStat r engine = some (st, r2)) :
    st.RequestLatency.objectives.map Prod.fst =
      [(1 : Rat)/2, (9 : Rat)/10, (99 : Rat)/100] ∧
    st.RequestLatency.objectives =
      [((1 : Rat)/2, (1 : Rat)/20), ((9 : Rat)/10, (1 : Rat)/100),
        ((99 : Rat)/100, (1 : Rat)/1000)] ∧
    st.RequestLatency.name = "storage_latency_" ++ engine ∧
    st.RequestLatency.labelNames = [statsOps] ∧
    st.RequestLatency.maxAgeSeconds = 10 ∧
    st.ResponseError.name = "storage_error_" ++ engine ∧
    st.ResponseError.labelNames = [statsOps] ∧
    r2.collectors = r.collectors ++
      [fqName statsNamespace st.RequestLatency.name,
        fqName statsNamespace st.ResponseError.name] := by
  rw [newStat_eq] at h
  split at h
  · exact Option.noConfusion h
  · rw [Option.some_inj, Prod.mk.injEq] at h
    obtain ⟨hst, hr2⟩ := h
    subst hst
    subst hr2
    exact ⟨rfl, rfl, rfl, rfl, rfl, rfl, rfl, rfl⟩

/-- Evaluation of NewStat for the badger engine on an empty registry. -/
theorem newStat_badger_eval :
    NewStat ⟨[]⟩ "badger" = some (statBadger, registryBadger) := rfl

/-- Witness: NewStat at the badger engine on an empty registry yields the
0.5, 0.9, 0.99 quantiles and the two registered metric names. -/
theorem newStat_quantiles_injected_registry_witness :
    statBadger.RequestLatency.objectives.map Prod.fst =
      [(1 : Rat)/2, (9 : Rat)/10, (99 : Rat)/100] ∧
    registryBadger.collectors =
      ["dkv_storage_latency_badger", "dkv_storage_error_badger"] := by
  have h := newStat_quantiles_injected_registry ⟨[]⟩ "badger" statBadger registryBadger
    newStat_badger_eval
  exact ⟨h.1, rfl⟩

/-- C9: RenameFolder removes the destination before looking at the source:
when the removal of the destination succeeds and the source does not exist,
the call returns an error, yet the destination has already been removed and
no longer exists in the returned state. -/
theorem renameFolder_removes_dst_before_checking_src (fs : FileSystem) (src dst : String)
    (hd : dst ∉ fs.removalDenied) (hs : fsLookup fs.entries src = none) :
    (∃ e, (RenameFolder fs src dst).2 = some e) ∧
    fsLookup (RenameFolder fs src dst).1.entries dst = none := by
  have hrm : removeAll fs dst = .ok ⟨fsErase fs.entries dst, fs.removalDenied⟩ := by
    simp [removeAll, hd]
  have hs1 : fsLookup (fsErase fs.entries dst) src = none := by
    by_cases hsd : src = dst
    · rw [hsd]
      exact fsLookup_fsErase_self _ _
    · rw [fsLookup_fsErase_ne fs.entries dst src hsd]
      exact hs
  have hrn : renamePath ⟨fsErase fs.entries dst, fs.removalDenied⟩ src dst =
      .error ("rename failed, no such path " ++ src) := by
    simp [renamePath, hs1]
  refine ⟨⟨"rename failed, no such path " ++ src, ?_⟩, ?_⟩
  · simp [RenameFolder, hrm, hrn]
  · simp [RenameFolder, hrm, hrn, fsLookup_fsErase_self]

/-- Witness: with one entry at the destination, no removal denial, and an
absent source, RenameFolder errors out with the destination gone. -/
theorem renameFolder_removes_dst_before_checking_src_witness :
    (∃ e, (RenameFolder ⟨[("dest", 5)], []⟩ "stage" "dest").2 = some e) ∧
    fsLookup (RenameFolder ⟨[("dest", 5)], []⟩ "stage" "dest").1.entries "dest" = none :=
  renameFolder_removes_dst_before_checking_src ⟨[("dest", 5)], []⟩ "stage" "dest"
    (by decide) (by decide)

/-- C10: NewStat registers through MustRegister, so a second NewStat call
with the same engine name against the registry produced by the first
(duplicate fully qualified metric names) panics — modelled as none — rather
than returning an error value. -/
theorem newStat_duplicate_engine_panics (r : Registry) (engine : String)
    (st : Stat) (r2 : Registry) (h : NewStat r engine = some (st, r2)) :
    NewStat r2 engine = none := by
  rw [newStat_eq] at h
  split at h
  · exact Option.noConfusion h
  · rw [Option.some_inj, Prod.mk.injEq] at h
    obtain ⟨hst, hr2⟩ := h
    rw [newStat_eq]
    have hc : containsName r2.collectors
        (fqName statsNamespace ("storage_latency_" ++ engine)) = true := by
      rw [← hr2]
      exact containsName_append_mid r.collectors
        [fqName statsNamespace ("storage_error_" ++ engine)]
        (fqName statsNamespace ("storage_latency_" ++ engine))
    simp [anyRegistered, hc]

/-- Witness: after NewStat succeeds for badger on an empty registry, a
second NewStat for badger against the produced registry panics. -/
theorem newStat_duplicate_engine_panics_witness :
    NewStat registryBadger "badger" = none :=
  newStat_duplicate_engine_panics ⟨[]⟩ "badger" statBadger registryBadger newStat_badger_eval
